import Mathlib

/-!
Shallow embedding of the stable-dracor workflow notebook
(stable-dracor-workflow.ipynb): the HTTP request helper get, the
corpus-creation POST cell, and the snapshot-loading cells (download
URL, playname derivation, play-upload PUT).

HTTP itself is abstracted as a function from a request URL to a pair
of status code and response body; everything the notebook computes
from its inputs and from such a response is embedded as executable
definitions below.
-/

/-- Result of a successful call of the request helper get: either the raw
response text, or the value produced by applying the JSON parser of the
json library to the response text. The parse itself is external library
behaviour and is kept abstract; the constructor records which text is
handed to the parser. -/
inductive GetResult where
  | jsonData (raw : String) : GetResult
  | text (raw : String) : GetResult
deriving DecidableEq

/-- Python str.endswith, the suffix test applied to the apibase kwarg of
get: true when t occurs at the very end of s. -/
def pyEndsWith (s t : String) : Bool :=
  List.isSuffixOf t.data s.data

/-- Resolution of the apibase kwarg of get: a caller-supplied base keeps
a trailing slash and gets one appended when missing; without the kwarg
the local API base is used. -/
def resolveApibase (apibase : Option String) : String :=
  match apibase with
  | some b => if pyEndsWith b "/" then b else b ++ "/"
  | none => "http://localhost:8088/api/"

/-- The request-URL construction of get from the resolved base and the
optional corpusname, playname and method kwargs, mirroring the if/elif
chain of the source: the branch for method alone requires that neither
corpusname nor playname is present, and the final branch yields the
info URL. -/
def buildUrl (base : String) (corpusname playname method : Option String) : String :=
  match corpusname, playname with
  | some c, some p =>
    match method with
    | some m => base ++ "corpora/" ++ c ++ "/play/" ++ p ++ "/" ++ m
    | none => base ++ "corpora/" ++ c ++ "/play/" ++ p
  | some c, none =>
    match method with
    | some m => base ++ "corpora/" ++ c ++ "/" ++ m
    | none => base ++ "corpora/" ++ c
  | none, some _ => base ++ "info"
  | none, none =>
    match method with
    | some m => base ++ m
    | none => base ++ "info"

/-- The full request URL built by get from its kwargs. -/
def requestUrl (apibase corpusname playname method : Option String) : String :=
  buildUrl (resolveApibase apibase) corpusname playname method

/-- The message of the exception raised by get on a non-200 status. -/
def statusMessage (status : Nat) : String :=
  "Request was not successful. Server returned status code: " ++ toString status

/-- Status-code and body handling of get: a 200 response returns the
parsed JSON when the parse_json kwarg equals true and the raw text
otherwise; any other status raises the exception with the status code
in its message. -/
def handleResponse (parse_json : Option Bool) (status : Nat) (text : String) :
    Except String GetResult :=
  if status == 200 then
    match parse_json with
    | some flag =>
      if flag == true then Except.ok (GetResult.jsonData text)
      else Except.ok (GetResult.text text)
    | none => Except.ok (GetResult.text text)
  else
    Except.error (statusMessage status)

/-- The request helper get of the notebook: builds the request URL from
the kwargs, performs the HTTP GET (abstracted as http, a function from
URL to status code and body), and handles the response. -/
def get (http : String → Nat × String)
    (apibase corpusname playname method : Option String)
    (parse_json : Option Bool) : Except String GetResult :=
  let request_url := requestUrl apibase corpusname playname method
  let r := http request_url
  handleResponse parse_json r.1 r.2

/-- The corpus-creation cell: it sends the POST request and, when the
status code is 200, prints a success line; the cell contains no raise,
so its embedding over Except has no error outcome. The returned option
is the printed line, none when nothing is printed. -/
def createCorpusCell (status : Nat) (new_corpus_name : String) :
    Except String (Option String) :=
  if status == 200 then
    Except.ok (some ("Success!" ++ " http://localhost:8088/" ++ new_corpus_name))
  else
    Except.ok none

/-- The play-upload cell: it sends the PUT request and binds the
response without inspecting the status code; no raise, no output. -/
def uploadPlayCell (_status : Nat) : Except String Unit :=
  Except.ok ()

/-- The download-URL construction of the snapshot-loading cells. -/
def download_url (corpus_repo_part commit_id filename : String) : String :=
  "https://raw.githubusercontent.com/dracor-org/" ++ corpus_repo_part ++ "/" ++
    commit_id ++ "/tei/" ++ filename

/-- Raw-content URL written from the shape the specification describes:
scheme, then host, org, repo, commit, path and file separated by
slashes. -/
def rawContentUrlShape (host org repo commit path file : String) : String :=
  "https://" ++ host ++ "/" ++ org ++ "/" ++ repo ++ "/" ++ commit ++ "/" ++
    path ++ "/" ++ file

/-- Python s.split(sep) taken at index 0, for a nonempty separator: the
part of the list before the first position at which sep starts. -/
def takeBeforeSep (sep : List Char) : List Char → List Char
  | [] => []
  | c :: cs => if List.isPrefixOf sep (c :: cs) then [] else c :: takeBeforeSep sep cs

/-- The playname derivation of the snapshot-loading cell:
filename.split of the string dot-xml, taken at index 0. -/
def playname (filename : String) : String :=
  String.mk (takeBeforeSep ".xml".data filename.data)

/-- Occurrence test used to state where the playname derivation agrees
with plain suffix removal: does sep start at some position of the
list. -/
def containsSeq (sep : List Char) : List Char → Bool
  | [] => List.isPrefixOf sep []
  | c :: cs => List.isPrefixOf sep (c :: cs) || containsSeq sep cs

/-- The characters of the separator used by the playname derivation. -/
def xmlSep : List Char := ['.', 'x', 'm', 'l']

/-- Helper: the separator characters of the playname derivation are the
data of the separator string. -/
theorem xmlSep_eq_data : ".xml".data = xmlSep := rfl

/-- Helper: a non-200 status makes the response handling of get raise
the exception with the status message. -/
theorem handleResponse_ne (pj : Option Bool) (status : Nat) (text : String)
    (h : status ≠ 200) :
    handleResponse pj status text = Except.error (statusMessage status) := by
  simp [handleResponse, h]

/-- Helper: a 200 status makes the response handling of get return a
result. -/
theorem handleResponse_ok (pj : Option Bool) (text : String) :
    ∃ res, handleResponse pj 200 text = Except.ok res := by
  rcases pj with _ | ⟨_ | _⟩ <;> exact ⟨_, rfl⟩

/-- Helper: get is the response handling applied to the status and body
returned by the HTTP layer for the constructed request URL. -/
theorem get_eq (http : String → Nat × String) (ab c p m : Option String)
    (pj : Option Bool) :
    get http ab c p m pj =
      handleResponse pj (http (requestUrl ab c p m)).1 (http (requestUrl ab c p m)).2 := rfl

/-- Helper: the exception message of get ends in the decimal rendering
of the status code. -/
theorem statusMessage_carries (status : Nat) :
    pyEndsWith (statusMessage status) (toString status) = true := by
  unfold pyEndsWith statusMessage
  rw [String.data_append]
  simp only [ List.isSuffixOf_iff_suffix]
  exact List.suffix_append _ _

/-- Helper: appending a slash to any base yields a base that ends in a
slash. -/
theorem pyEndsWith_slash_append (b : String) : pyEndsWith (b ++ "/") "/" = true := by
  unfold pyEndsWith
  rw [String.data_append]
  simp [ List.isSuffixOf_iff_suffix]

/-- Helper: when the separator starts somewhere in a list of the form
head cons middle followed by the separator itself, it already starts at
the head; the separator has no self-overlap, so an occurrence cannot
straddle the boundary. -/
theorem xmlSep_head_of_append (c : Char) (u1 v : List Char)
    (hp : List.isPrefixOf xmlSep (c :: (u1 ++ (xmlSep ++ v))) = true) :
    List.isPrefixOf xmlSep (c :: u1) = true := by
  rcases u1 with _ | ⟨c2, u2⟩
  · simp [xmlSep, List.isPrefixOf] at hp
  · rcases u2 with _ | ⟨c3, u3⟩
    · simp [xmlSep, List.isPrefixOf] at hp
    · rcases u3 with _ | ⟨c4, u4⟩
      · simp [xmlSep, List.isPrefixOf] at hp
      · simp [xmlSep, List.isPrefixOf] at hp ⊢
        exact hp

/-- Helper: the scan of the playname derivation over a list in which the
separator does not occur, followed by the separator and anything else,
stops exactly at the separator. -/
theorem takeBeforeSep_xml_append (u v : List Char)
    (h : containsSeq xmlSep u = false) :
    takeBeforeSep xmlSep (u ++ (xmlSep ++ v)) = u := by
  induction u with
  | nil => simp [takeBeforeSep, xmlSep, List.isPrefixOf]
  | cons c u1 ih =>
    have hsplit : List.isPrefixOf xmlSep (c :: u1) = false ∧
        containsSeq xmlSep u1 = false := by
      simpa [containsSeq] using h
    have hcond : List.isPrefixOf xmlSep (c :: (u1 ++ (xmlSep ++ v))) = false := by
      rcases hb : List.isPrefixOf xmlSep (c :: (u1 ++ (xmlSep ++ v))) with _ | _
      · rfl
      · rw [xmlSep_head_of_append c u1 v hb] at hsplit
        exact absurd hsplit.1 (by simp)
    rw [List.cons_append, takeBeforeSep, hcond]
    simp [ih hsplit.2]

/-- Claim C1: for each of the five kwarg combinations, the request URL
built by get is the resolved base followed by the corpus, play and
method parts in order, with the documented separators. -/
theorem requestUrl_concat_order (ab : Option String) (c p m : String) :
    requestUrl ab (some c) (some p) (some m) =
      resolveApibase ab ++ "corpora/" ++ c ++ "/play/" ++ p ++ "/" ++ m ∧
    requestUrl ab (some c) (some p) none =
      resolveApibase ab ++ "corpora/" ++ c ++ "/play/" ++ p ∧
    requestUrl ab (some c) none (some m) =
      resolveApibase ab ++ "corpora/" ++ c ++ "/" ++ m ∧
    requestUrl ab (some c) none none = resolveApibase ab ++ "corpora/" ++ c ∧
    requestUrl ab none none (some m) = resolveApibase ab ++ m :=
  ⟨rfl, rfl, rfl, rfl, rfl⟩

/-- Claim C2: every invocation of get raises, with the status code at
the end of the exception message, exactly when the response status is
not 200; a 200 response returns a result without raising. -/
theorem get_raises_on_non_success (http : String → Nat × String)
    (ab c p m : Option String) (pj : Option Bool) :
    ((http (requestUrl ab c p m)).1 ≠ 200 →
      get http ab c p m pj =
        Except.error (statusMessage (http (requestUrl ab c p m)).1) ∧
      pyEndsWith (statusMessage (http (requestUrl ab c p m)).1)
        (toString (http (requestUrl ab c p m)).1) = true) ∧
    ((http (requestUrl ab c p m)).1 = 200 →
      ∃ res, get http ab c p m pj = Except.ok res) := by
  constructor
  · intro h
    exact ⟨by rw [get_eq]; exact handleResponse_ne pj _ _ h, statusMessage_carries _⟩
  · intro h
    rw [get_eq, h]
    exact handleResponse_ok pj _

/-- Claim C2 witness: a 404 response makes get raise with the status
code in the message, and a 200 response makes it return a result. -/
theorem get_raises_on_non_success_witness :
    (get (fun _ => (404, "nf")) none none none none none =
      Except.error (statusMessage 404) ∧
      pyEndsWith (statusMessage 404) (toString 404) = true) ∧
    (∃ res, get (fun _ => (200, "ok")) none none none none none = Except.ok res) :=
  ⟨(get_raises_on_non_success (fun _ => (404, "nf")) none none none none none).1 (by decide),
   (get_raises_on_non_success (fun _ => (200, "ok")) none none none none none).2 rfl⟩

/-- Claim C3 counterexample: a 404 response does not make the
corpus-creation POST cell or the play-upload PUT cell raise: both cells
finish normally, the POST cell printing nothing, although the claim
demands that any non-200 response abort these operations by raising the
upstream-failure error. -/
theorem post_put_non_success_no_raise :
    createCorpusCell 404 "whatever" = Except.ok none ∧
    uploadPlayCell 404 = Except.ok () :=
  ⟨rfl, rfl⟩

/-- Claim C3 amended: only the request helper get raises the
upstream-failure error with the status code attached on a non-200
response; the corpus-creation POST cell never raises and prints its
success line exactly when the status is 200, and the play-upload PUT
cell never raises nor inspects the status at all. -/
theorem non_success_handling (http : String → Nat × String)
    (ab c p m : Option String) (pj : Option Bool) (status : Nat) (name : String) :
    ((http (requestUrl ab c p m)).1 ≠ 200 →
      get http ab c p m pj =
        Except.error (statusMessage (http (requestUrl ab c p m)).1)) ∧
    (status ≠ 200 → createCorpusCell status name = Except.ok none) ∧
    uploadPlayCell status = Except.ok () := by
  refine ⟨fun h => ?_, fun h => ?_, rfl⟩
  · rw [get_eq]
    exact handleResponse_ne pj _ _ h
  · simp [createCorpusCell, h]

/-- Claim C3 amended witness: at status 500 get raises while the POST
cell and the PUT cell finish without raising. -/
theorem non_success_handling_witness :
    (get (fun _ => (500, "err")) none none none none none =
      Except.error (statusMessage 500)) ∧
    createCorpusCell 500 "whatever" = Except.ok none ∧
    uploadPlayCell 500 = Except.ok () :=
  ⟨(non_success_handling (fun _ => (500, "err")) none none none none none 500 "whatever").1
     (by decide),
   (non_success_handling (fun _ => (500, "err")) none none none none none 500 "whatever").2.1
     (by decide),
   (non_success_handling (fun _ => (500, "err")) none none none none none 500 "whatever").2.2⟩

/-- Claim C4 counterexample: the filename that repeats the extension
ends in the extension, yet the derived playname is the part before the
first occurrence, not the filename with only the final extension
removed. -/
theorem playname_suffix_counterexample :
    pyEndsWith "a.xml.xml" ".xml" = true ∧
    playname "a.xml.xml" = "a" ∧
    playname "a.xml.xml" ≠ "a.xml" := by
  refine ⟨by decide, by decide, by decide⟩

/-- Claim C4 amended: the derived playname is the part of the filename
before the first occurrence of the extension; for a filename formed as
w followed by the extension, it equals w, the filename with the
extension removed, whenever the extension does not already occur inside
w. -/
theorem playname_first_occurrence (w : String)
    (h : containsSeq ".xml".data w.data = false) :
    playname (w ++ ".xml") = w := by
  unfold playname
  rw [String.data_append]
  rw [xmlSep_eq_data] at h ⊢
  have hmain := takeBeforeSep_xml_append w.data [] h
  simp only [List.append_nil] at hmain
  rw [hmain]

/-- Claim C4 amended witness: the extension does not occur inside the
sample stem and stripping works there. -/
theorem playname_first_occurrence_witness :
    containsSeq ".xml".data "hamlet-stem".data = false ∧
    playname ("hamlet-stem" ++ ".xml") = "hamlet-stem" :=
  ⟨by decide, playname_first_occurrence "hamlet-stem" (by decide)⟩

/-- Claim C5: an invocation of get that receives a 200 response returns
the JSON parse of the body when parse_json equals true, and the raw
body text when parse_json is absent or has any other value. -/
theorem get_parse_json_selects (http : String → Nat × String)
    (ab c p m : Option String)
    (h200 : (http (requestUrl ab c p m)).1 = 200) :
    get http ab c p m (some true) =
      Except.ok (GetResult.jsonData (http (requestUrl ab c p m)).2) ∧
    ∀ pj : Option Bool, pj ≠ some true →
      get http ab c p m pj = Except.ok (GetResult.text (http (requestUrl ab c p m)).2) := by
  constructor
  · rw [get_eq, h200]
    rfl
  · intro pj hpj
    rw [get_eq, h200]
    rcases pj with _ | ⟨_ | _⟩
    · rfl
    · rfl
    · exact absurd rfl hpj

/-- Claim C5 witness: with a 200 response carrying a fixed body, get
returns the JSON parse of the body for parse_json true and the raw body
when parse_json is absent. -/
theorem get_parse_json_selects_witness :
    get (fun _ => (200, "body")) none none none none (some true) =
      Except.ok (GetResult.jsonData "body") ∧
    get (fun _ => (200, "body")) none none none none none =
      Except.ok (GetResult.text "body") :=
  ⟨(get_parse_json_selects (fun _ => (200, "body")) none none none none rfl).1,
   (get_parse_json_selects (fun _ => (200, "body")) none none none none rfl).2 none
     (by decide)⟩

/-- Claim C6: the download URL is the documented concatenation and
matches the raw-content shape with host raw.githubusercontent.com, org
dracor-org and path tei. -/
theorem download_url_shape (repo commit file : String) :
    download_url repo commit file =
      "https://raw.githubusercontent.com/dracor-org/" ++ repo ++ "/" ++ commit ++
        "/tei/" ++ file ∧
    download_url repo commit file =
      rawContentUrlShape "raw.githubusercontent.com" "dracor-org" repo commit "tei" file := by
  constructor
  · rfl
  · unfold download_url rawContentUrlShape
    rw [show ("https://" ++ "raw.githubusercontent.com" ++ "/" ++ "dracor-org" ++ "/" : String) =
      "https://raw.githubusercontent.com/dracor-org/" from rfl]
    rw [show ("/tei/" : String) = "/" ++ "tei" ++ "/" from rfl]
    simp [String.append_assoc]

/-- Claim C7: the playname derived from the sample filename is the
sample stem. -/
theorem playname_lessing_emilia_galotti :
    playname "lessing-emilia-galotti.xml" = "lessing-emilia-galotti" := by
  decide

/-- Claim C8: with corpus tat, no play, no method and the default base,
the request URL is the local corpora URL for tat, ending in the
documented path. -/
theorem requestUrl_tat_default_base :
    requestUrl none (some "tat") none none = "http://localhost:8088/api/corpora/tat" ∧
    pyEndsWith (requestUrl none (some "tat") none none) "/api/corpora/tat" = true := by
  constructor <;> decide

/-- Claim C9: a play name supplied without a corpus name is ignored
together with any method, and the request targets the info URL, the
same URL as with no kwargs at all. -/
theorem requestUrl_play_without_corpus (ab : Option String) (p : String)
    (m : Option String) :
    requestUrl ab none (some p) m = resolveApibase ab ++ "info" ∧
    requestUrl ab none (some p) m = requestUrl ab none none none :=
  ⟨rfl, rfl⟩

/-- Claim C10: for a caller-supplied base without a trailing slash, the
request URL is the same as for the base with the slash appended. -/
theorem requestUrl_trailing_slash_invariant (b : String) (c p m : Option String)
    (h : pyEndsWith b "/" = false) :
    requestUrl (some b) c p m = requestUrl (some (b ++ "/")) c p m := by
  unfold requestUrl
  rw [show resolveApibase (some b) = resolveApibase (some (b ++ "/")) from by
    simp [resolveApibase, h, pyEndsWith_slash_append]]

/-- Claim C10 witness: the staging base has no trailing slash and yields
the same URL as the slashed staging base. -/
theorem requestUrl_trailing_slash_invariant_witness :
    pyEndsWith "https://staging.dracor.org/api" "/" = false ∧
    requestUrl (some "https://staging.dracor.org/api") (some "tat") none none =
      requestUrl (some ("https://staging.dracor.org/api" ++ "/")) (some "tat") none none :=
  ⟨by decide,
   requestUrl_trailing_slash_invariant "https://staging.dracor.org/api" (some "tat") none none
     (by decide)⟩
